import Mathlib

/-!
Verification of the arovia-backend analysis pipeline.

This file shallowly embeds the TypeScript source of the repository:

* `src/services/groqAdapter.ts` — `sanitizePayload` and the JSON
  extraction logic of `analyzeWithGroq` (direct parse, then first-`{`
  to last-`}` block extraction via the regex `/\x7b[\s\S]*\x7d/`).
* `src/services/analyzeService.ts` — `withRetries` (transient-error
  classification with exponential backoff), the zod `AnalysisSchema`
  validation, probability rounding, metadata backfill, `analyzeMerged`
  and `analyzeBatch`.
* `src/unnamed/part_000` (an alternative revision of
  `analyzeService.ts`) — the two-schema normalizer: zod `AnalysisV2`
  and `LegacyAnalysis` validation and the legacy-to-v2 shape upgrade.

JavaScript values are modelled by the inductive `Json`; JS machine
numbers are modelled by `ℚ` (the claims involve only exact decimal
arithmetic).  Objects are association lists; `JSON.parse` produces
objects without duplicate keys, and the key helpers below act on all
occurrences of a key, which coincides with JS semantics on such lists.
Side effects (logging, `setTimeout` sleeps, the Groq transport) are
made explicit: sleeps are recorded as a list of delay durations, the
transport is an oracle parameter, and thrown errors are `Except`.
-/

/-- A JSON / JavaScript value. -/
inductive Json where
  | null : Json
  | bool (b : Bool) : Json
  | num (q : ℚ) : Json
  | str (s : String) : Json
  | arr (elems : List Json) : Json
  | obj (fields : List (String × Json)) : Json

/-- First value bound to key `k` (JS property read on a
duplicate-free object). -/
def lookupKey (k : String) : List (String × Json) → Option Json
  | [] => none
  | p :: rest => if p.1 = k then some p.2 else lookupKey k rest

/-- Remove every binding of key `k` (JS `delete copy.k`). -/
def eraseKey (k : String) : List (String × Json) → List (String × Json)
  | [] => []
  | p :: rest => if p.1 = k then eraseKey k rest else p :: eraseKey k rest

/-- Overwrite every binding of key `k` with `v` (JS `copy.k = v` on a
duplicate-free object). -/
def setKey (k : String) (v : Json) : List (String × Json) → List (String × Json)
  | [] => []
  | p :: rest => (if p.1 = k then (k, v) else p) :: setKey k v rest

/-- JavaScript truthiness of a value. -/
def jsTruthy : Json → Bool
  | .null => false
  | .bool b => b
  | .num q => decide (q ≠ 0)
  | .str s => decide (s ≠ "")
  | .arr _ => true
  | .obj _ => true

/-- Decimal-style rendering of a rational.  JS renders numbers in
decimal; for the non-integer case the exact JS formatting is
approximated by `num/den` (the claims below use only string and
integer identifier values, whose rendering is exact). -/
def ratToString (q : ℚ) : String :=
  if q.den = 1 then toString q.num else toString q.num ++ "/" ++ toString q.den

mutual

/-- JS `String(v)` coercion. -/
def jsToString : Json → String
  | .null => "null"
  | .bool b => if b then "true" else "false"
  | .num q => ratToString q
  | .str s => s
  | .arr l => jsToStringList l
  | .obj _ => "[object Object]"

/-- JS `Array.prototype.toString`: elements joined with commas. -/
def jsToStringList : List Json → String
  | [] => ""
  | [x] => jsToString x
  | x :: y :: xs => jsToString x ++ "," ++ jsToStringList (y :: xs)

end

/-- Last `n` characters of a string (JS `s.slice(-n)`). -/
def lastChars (n : ℕ) (s : String) : String :=
  ⟨s.data.drop (s.data.length - n)⟩

/-- First `n` characters of a string (JS `s.slice(0, n)`). -/
def firstChars (n : ℕ) (s : String) : String :=
  ⟨s.data.take n⟩

/-- Top-level field read: JS `x.k` on the payload. -/
def topField (k : String) : Json → Option Json
  | .obj kvs => lookupKey k kvs
  | _ => none

namespace GroqAdapter

/-- The three deletions of `sanitizePayload`
(src/services/groqAdapter.ts lines 17-19):
`delete copy.name; delete copy.email; delete copy.phone`. -/
def stripIds (kvs : List (String × Json)) : List (String × Json) :=
  eraseKey "phone" (eraseKey "email" (eraseKey "name" kvs))

/-- The `abha_id` pseudonymization of `sanitizePayload`
(src/services/groqAdapter.ts lines 20-22): if `copy.abha_id` is truthy,
set it to ``user_${String(copy.abha_id).slice(-6)}``. -/
def pseudonymizeAbha (kvs : List (String × Json)) : List (String × Json) :=
  match lookupKey "abha_id" kvs with
  | some v =>
      if jsTruthy v then
        setKey "abha_id" (Json.str ("user_" ++ lastChars 6 (jsToString v))) kvs
      else kvs
  | none => kvs

/-- The notes truncation of `sanitizePayload`
(src/services/groqAdapter.ts lines 24-26): if `copy.notes` is truthy
and a string, set it to `copy.notes.slice(0, 1000)`. -/
def truncNotes (kvs : List (String × Json)) : List (String × Json) :=
  match lookupKey "notes" kvs with
  | some (Json.str s) =>
      if s ≠ "" then setKey "notes" (Json.str (firstChars 1000 s)) kvs else kvs
  | _ => kvs

/-- Body of `sanitizePayload` on an object's field list
(src/services/groqAdapter.ts lines 14-28), in source order. -/
def sanitizeKVs (kvs : List (String × Json)) : List (String × Json) :=
  truncNotes (pseudonymizeAbha (stripIds kvs))

/-- `sanitizePayload` (src/services/groqAdapter.ts lines 14-28).  The
initial `JSON.parse(JSON.stringify(raw))` deep copy is the identity on
`Json` values.  On non-object inputs the property deletions and
truthiness checks are no-ops. -/
def sanitizePayload : Json → Json
  | .obj kvs => .obj (sanitizeKVs kvs)
  | x => x

end GroqAdapter

section KeyLemmas

theorem strData_append (s t : String) : (s ++ t).data = s.data ++ t.data := rfl

theorem str_ne_empty_iff (s : String) : s ≠ "" ↔ s.data ≠ [] := by
  cases s with
  | mk l =>
    constructor
    · intro h h2
      exact h (congrArg String.mk h2)
    · intro h h2
      exact h (congrArg String.data h2)

theorem lookupKey_eraseKey_self (k : String) (l : List (String × Json)) :
    lookupKey k (eraseKey k l) = none := by
  induction l with
  | nil => rfl
  | cons p rest ih =>
      by_cases h : p.1 = k <;> simp [eraseKey, lookupKey, h, ih]

theorem lookupKey_eraseKey_ne (k k' : String) (h : k ≠ k') (l : List (String × Json)) :
    lookupKey k (eraseKey k' l) = lookupKey k l := by
  induction l with
  | nil => rfl
  | cons p rest ih =>
      by_cases h1 : p.1 = k'
      · have h2 : ¬ p.1 = k := by rw [h1]; exact Ne.symm h
        simp [eraseKey, lookupKey, h1, h2, ih, Ne.symm h]
      · simp only [eraseKey, if_neg h1, lookupKey]
        by_cases h2 : p.1 = k <;> simp [h2, ih]

theorem eraseKey_of_lookupKey_none (k : String) (l : List (String × Json))
    (h : lookupKey k l = none) : eraseKey k l = l := by
  induction l with
  | nil => rfl
  | cons p rest ih =>
      by_cases h1 : p.1 = k
      · simp [lookupKey, h1] at h
      · simp only [lookupKey, if_neg h1] at h
        simp [eraseKey, h1, ih h]

theorem lookupKey_setKey_self (k : String) (v : Json) (l : List (String × Json)) :
    lookupKey k (setKey k v l) = (lookupKey k l).map (fun _ => v) := by
  induction l with
  | nil => rfl
  | cons p rest ih =>
      by_cases h : p.1 = k <;> simp [setKey, lookupKey, h, ih]

theorem lookupKey_setKey_ne (k k' : String) (v : Json) (h : k ≠ k')
    (l : List (String × Json)) :
    lookupKey k (setKey k' v l) = lookupKey k l := by
  induction l with
  | nil => rfl
  | cons p rest ih =>
      by_cases h1 : p.1 = k'
      · have h2 : ¬ p.1 = k := by rw [h1]; exact Ne.symm h
        simp [setKey, lookupKey, h1, h2, ih, Ne.symm h]
      · simp only [setKey, if_neg h1, lookupKey]
        by_cases h2 : p.1 = k <;> simp [h2, ih]

theorem setKey_setKey_same (k : String) (v v' : Json) (l : List (String × Json)) :
    setKey k v' (setKey k v l) = setKey k v' l := by
  induction l with
  | nil => rfl
  | cons p rest ih =>
      by_cases h : p.1 = k <;> simp [setKey, h, ih]

theorem setKey_comm (k k' : String) (v v' : Json) (h : k ≠ k')
    (l : List (String × Json)) :
    setKey k v (setKey k' v' l) = setKey k' v' (setKey k v l) := by
  induction l with
  | nil => rfl
  | cons p rest ih =>
      by_cases h1 : p.1 = k'
      · have h2 : ¬ p.1 = k := by rw [h1]; exact Ne.symm h
        simp [setKey, h1, h2, ih, Ne.symm h]
      · by_cases h2 : p.1 = k <;> simp [setKey, h1, h2, ih, h]

end KeyLemmas

namespace GroqAdapter

theorem lookup_stripIds_name (l : List (String × Json)) :
    lookupKey "name" (stripIds l) = none := by
  unfold stripIds
  rw [lookupKey_eraseKey_ne _ _ (by decide), lookupKey_eraseKey_ne _ _ (by decide),
    lookupKey_eraseKey_self]

theorem lookup_stripIds_email (l : List (String × Json)) :
    lookupKey "email" (stripIds l) = none := by
  unfold stripIds
  rw [lookupKey_eraseKey_ne _ _ (by decide), lookupKey_eraseKey_self]

theorem lookup_stripIds_phone (l : List (String × Json)) :
    lookupKey "phone" (stripIds l) = none := by
  unfold stripIds
  rw [lookupKey_eraseKey_self]

theorem lookup_stripIds_other (k : String) (h1 : k ≠ "name") (h2 : k ≠ "email")
    (h3 : k ≠ "phone") (l : List (String × Json)) :
    lookupKey k (stripIds l) = lookupKey k l := by
  unfold stripIds
  rw [lookupKey_eraseKey_ne _ _ h3, lookupKey_eraseKey_ne _ _ h2,
    lookupKey_eraseKey_ne _ _ h1]

theorem stripIds_of_none (l : List (String × Json))
    (hn : lookupKey "name" l = none) (he : lookupKey "email" l = none)
    (hp : lookupKey "phone" l = none) : stripIds l = l := by
  unfold stripIds
  rw [eraseKey_of_lookupKey_none _ _ hn,
    eraseKey_of_lookupKey_none _ _ he, eraseKey_of_lookupKey_none _ _ hp]

theorem lookup_pseudonymizeAbha_ne (k : String) (h : k ≠ "abha_id")
    (l : List (String × Json)) :
    lookupKey k (pseudonymizeAbha l) = lookupKey k l := by
  unfold pseudonymizeAbha
  cases lookupKey "abha_id" l with
  | none => rfl
  | some v =>
      by_cases hv : jsTruthy v
      · simp [hv, lookupKey_setKey_ne _ _ _ h]
      · simp [hv]

theorem lookup_truncNotes_ne (k : String) (h : k ≠ "notes")
    (l : List (String × Json)) :
    lookupKey k (truncNotes l) = lookupKey k l := by
  unfold truncNotes
  cases hl : lookupKey "notes" l with
  | none => rfl
  | some v =>
      cases v with
      | str s =>
          by_cases hs : s = ""
          · simp [hs]
          · simp [hs, lookupKey_setKey_ne _ _ _ h]
      | null => rfl
      | bool b => rfl
      | num q => rfl
      | arr es => rfl
      | obj fs => rfl

theorem firstChars_ne_empty (n : ℕ) (hn : n ≠ 0) (s : String) (hs : s ≠ "") :
    firstChars n s ≠ "" := by
  rw [str_ne_empty_iff] at hs ⊢
  unfold firstChars
  intro h
  have hlen := congrArg List.length h
  simp at hlen
  rcases hlen with h1 | h1
  · exact hn h1
  · exact hs (List.length_eq_zero.mp h1)

theorem firstChars_firstChars (n : ℕ) (s : String) :
    firstChars n (firstChars n s) = firstChars n s := by
  unfold firstChars
  simp [List.take_take]

theorem truncNotes_of_untouched (l : List (String × Json))
    (h : ∀ s : String, lookupKey "notes" l = some (Json.str s) → s = "") :
    truncNotes l = l := by
  unfold truncNotes
  rcases hl : lookupKey "notes" l with _ | v
  · rfl
  · rcases v with _ | b | q | s | es | fs
    case str => simp [h s hl]
    all_goals rfl

theorem truncNotes_of_str (l : List (String × Json)) (s : String)
    (hl : lookupKey "notes" l = some (Json.str s)) (hs : s ≠ "") :
    truncNotes l = setKey "notes" (Json.str (firstChars 1000 s)) l := by
  unfold truncNotes
  rw [hl]
  simp [hs]

theorem truncNotes_idem (l : List (String × Json)) :
    truncNotes (truncNotes l) = truncNotes l := by
  rcases hl : lookupKey "notes" l with _ | v
  · have h1 : truncNotes l = l := truncNotes_of_untouched l (by intro s hs; rw [hl] at hs; cases hs)
    rw [h1]
    exact h1
  · rcases v with _ | b | q | s | es | fs
    case str =>
      by_cases hs : s = ""
      · have h1 : truncNotes l = l := truncNotes_of_untouched l (by
          intro s' hs'
          rw [hl] at hs'
          cases hs'
          exact hs)
        rw [h1]
        exact h1
      · have h1 := truncNotes_of_str l s hl hs
        have hlook : lookupKey "notes" (setKey "notes" (Json.str (firstChars 1000 s)) l) =
            some (Json.str (firstChars 1000 s)) := by
          rw [lookupKey_setKey_self, hl]
          rfl
        have h2 := truncNotes_of_str _ _ hlook (firstChars_ne_empty 1000 (by decide) s hs)
        rw [h1, h2, firstChars_firstChars, setKey_setKey_same]
    all_goals {
      have h1 : truncNotes l = l := truncNotes_of_untouched l (by intro s hs; rw [hl] at hs; cases hs)
      rw [h1]
      exact h1 }

theorem truncNotes_setKey_comm (k : String) (v : Json) (h : k ≠ "notes")
    (l : List (String × Json)) :
    setKey k v (truncNotes l) = truncNotes (setKey k v l) := by
  have hlook : lookupKey "notes" (setKey k v l) = lookupKey "notes" l :=
    lookupKey_setKey_ne _ _ _ (Ne.symm h) l
  rcases hl : lookupKey "notes" l with _ | w
  · have h1 : truncNotes l = l := truncNotes_of_untouched l (by intro s hs; rw [hl] at hs; cases hs)
    have h2 : truncNotes (setKey k v l) = setKey k v l :=
      truncNotes_of_untouched _ (by intro s hs; rw [hlook, hl] at hs; cases hs)
    rw [h1, h2]
  · rcases w with _ | b | q | s | es | fs
    case str =>
      by_cases hs : s = ""
      · have h1 : truncNotes l = l := truncNotes_of_untouched l (by
          intro s' hs'
          rw [hl] at hs'
          cases hs'
          exact hs)
        have h2 : truncNotes (setKey k v l) = setKey k v l := truncNotes_of_untouched _ (by
          intro s' hs'
          rw [hlook, hl] at hs'
          cases hs'
          exact hs)
        rw [h1, h2]
      · rw [truncNotes_of_str l s hl hs,
          truncNotes_of_str (setKey k v l) s (by rw [hlook, hl]) hs]
        exact setKey_comm _ _ _ _ h _
    all_goals {
      have h1 : truncNotes l = l := truncNotes_of_untouched l (by intro s hs; rw [hl] at hs; cases hs)
      have h2 : truncNotes (setKey k v l) = setKey k v l :=
        truncNotes_of_untouched _ (by intro s hs; rw [hlook, hl] at hs; cases hs)
      rw [h1, h2] }

end GroqAdapter

theorem user_append_ne_empty (t : String) : ("user_" ++ t) ≠ "" := by
  intro h
  have h2 : ("user_".data ++ t.data).length = ([] : List Char).length :=
    congrArg List.length (congrArg String.data h)
  have h4 : "user_".data.length = 5 := rfl
  rw [List.length_append, h4, List.length_nil] at h2
  omega

theorem lastChars_length_of_le (n : ℕ) (s : String) (h : n ≤ s.data.length) :
    (lastChars n s).data.length = n := by
  show (s.data.drop (s.data.length - n)).length = n
  rw [List.length_drop]
  omega

theorem lastChars_user (t : String) (h : t.data.length = 6) :
    lastChars 6 ("user_" ++ t) = t := by
  apply String.ext
  show (("user_" ++ t).data).drop ((("user_" ++ t).data).length - 6) = t.data
  have hdata : ("user_" ++ t).data = "user_".data ++ t.data := rfl
  have h5 : "user_".data.length = 5 := rfl
  rw [hdata, List.length_append, h5, h]
  have h6 : 5 + 6 - 6 = "user_".data.length := rfl
  rw [h6, List.drop_left]

namespace GroqAdapter

theorem pseudonymizeAbha_of_skip (l : List (String × Json))
    (h : ∀ v, lookupKey "abha_id" l = some v → jsTruthy v = false) :
    pseudonymizeAbha l = l := by
  unfold pseudonymizeAbha
  rcases hl : lookupKey "abha_id" l with _ | v
  · rfl
  · simp [h v hl]

theorem pseudonymizeAbha_of_truthy (l : List (String × Json)) (v : Json)
    (hl : lookupKey "abha_id" l = some v) (hv : jsTruthy v = true) :
    pseudonymizeAbha l =
      setKey "abha_id" (Json.str ("user_" ++ lastChars 6 (jsToString v))) l := by
  unfold pseudonymizeAbha
  rw [hl]
  simp [hv]

/-- Idempotence of the sanitizer body, under the proviso that a truthy
`abha_id` field stringifies to at least six characters. -/
theorem sanitizeKVs_idem (kvs : List (String × Json))
    (h : ∀ v, lookupKey "abha_id" kvs = some v → jsTruthy v = true →
      6 ≤ (jsToString v).data.length) :
    sanitizeKVs (sanitizeKVs kvs) = sanitizeKVs kvs := by
  unfold sanitizeKVs
  have hstrip : stripIds (truncNotes (pseudonymizeAbha (stripIds kvs))) =
      truncNotes (pseudonymizeAbha (stripIds kvs)) := by
    apply stripIds_of_none
    · rw [lookup_truncNotes_ne _ (by decide), lookup_pseudonymizeAbha_ne _ (by decide),
        lookup_stripIds_name]
    · rw [lookup_truncNotes_ne _ (by decide), lookup_pseudonymizeAbha_ne _ (by decide),
        lookup_stripIds_email]
    · rw [lookup_truncNotes_ne _ (by decide), lookup_pseudonymizeAbha_ne _ (by decide),
        lookup_stripIds_phone]
  rw [hstrip]
  have habha0 : lookupKey "abha_id" (stripIds kvs) = lookupKey "abha_id" kvs :=
    lookup_stripIds_other _ (by decide) (by decide) (by decide) kvs
  rcases habha : lookupKey "abha_id" (stripIds kvs) with _ | v
  · have hp1 : pseudonymizeAbha (stripIds kvs) = stripIds kvs :=
      pseudonymizeAbha_of_skip _ (by intro v hv; rw [habha] at hv; cases hv)
    have hp2 : pseudonymizeAbha (truncNotes (pseudonymizeAbha (stripIds kvs))) =
        truncNotes (pseudonymizeAbha (stripIds kvs)) := by
      apply pseudonymizeAbha_of_skip
      intro v hv
      rw [lookup_truncNotes_ne _ (by decide), hp1, habha] at hv
      cases hv
    rw [hp2, hp1, truncNotes_idem]
  · by_cases hv : jsTruthy v = true
    · have hlen : 6 ≤ (jsToString v).data.length := h v (habha0 ▸ habha) hv
      have hp1 := pseudonymizeAbha_of_truthy _ v habha hv
      have hlook2 : lookupKey "abha_id" (truncNotes (pseudonymizeAbha (stripIds kvs))) =
          some (Json.str ("user_" ++ lastChars 6 (jsToString v))) := by
        rw [lookup_truncNotes_ne _ (by decide), hp1, lookupKey_setKey_self, habha]
        rfl
      have hu : jsTruthy (Json.str ("user_" ++ lastChars 6 (jsToString v))) = true := by
        simp [jsTruthy, user_append_ne_empty]
      have hp2 := pseudonymizeAbha_of_truthy _ _ hlook2 hu
      rw [hp2]
      have hsame : lastChars 6 (jsToString (Json.str ("user_" ++ lastChars 6 (jsToString v)))) =
          lastChars 6 (jsToString v) := by
        show lastChars 6 ("user_" ++ lastChars 6 (jsToString v)) = lastChars 6 (jsToString v)
        exact lastChars_user _ (lastChars_length_of_le 6 _ hlen)
      rw [hsame, hp1]
      rw [truncNotes_setKey_comm _ _ (by decide), setKey_setKey_same]
      rw [← hp1, truncNotes_idem]
    · have hvf : jsTruthy v = false := by
        cases hjs : jsTruthy v
        · rfl
        · exact absurd hjs hv
      have hp1 : pseudonymizeAbha (stripIds kvs) = stripIds kvs :=
        pseudonymizeAbha_of_skip _ (by intro w hw; rw [habha] at hw; cases hw; exact hvf)
      have hp2 : pseudonymizeAbha (truncNotes (pseudonymizeAbha (stripIds kvs))) =
          truncNotes (pseudonymizeAbha (stripIds kvs)) := by
        apply pseudonymizeAbha_of_skip
        intro w hw
        rw [lookup_truncNotes_ne _ (by decide), hp1, habha] at hw
        cases hw
        exact hvf
      rw [hp2, hp1, truncNotes_idem]

end GroqAdapter

theorem lastChars_length_le (n : ℕ) (s : String) : (lastChars n s).data.length ≤ n := by
  show (s.data.drop (s.data.length - n)).length ≤ n
  rw [List.length_drop]
  omega

namespace GroqAdapter

theorem sanitizeKVs_no_name (kvs : List (String × Json)) :
    lookupKey "name" (sanitizeKVs kvs) = none := by
  unfold sanitizeKVs
  rw [lookup_truncNotes_ne _ (by decide), lookup_pseudonymizeAbha_ne _ (by decide),
    lookup_stripIds_name]

theorem sanitizeKVs_no_email (kvs : List (String × Json)) :
    lookupKey "email" (sanitizeKVs kvs) = none := by
  unfold sanitizeKVs
  rw [lookup_truncNotes_ne _ (by decide), lookup_pseudonymizeAbha_ne _ (by decide),
    lookup_stripIds_email]

theorem sanitizeKVs_no_phone (kvs : List (String × Json)) :
    lookupKey "phone" (sanitizeKVs kvs) = none := by
  unfold sanitizeKVs
  rw [lookup_truncNotes_ne _ (by decide), lookup_pseudonymizeAbha_ne _ (by decide),
    lookup_stripIds_phone]

theorem sanitizeKVs_abha (kvs : List (String × Json)) (v : Json)
    (hv : lookupKey "abha_id" kvs = some v) (ht : jsTruthy v = true) :
    lookupKey "abha_id" (sanitizeKVs kvs) =
      some (Json.str ("user_" ++ lastChars 6 (jsToString v))) := by
  unfold sanitizeKVs
  have habha : lookupKey "abha_id" (stripIds kvs) = some v := by
    rw [lookup_stripIds_other _ (by decide) (by decide) (by decide), hv]
  rw [lookup_truncNotes_ne _ (by decide), pseudonymizeAbha_of_truthy _ v habha ht,
    lookupKey_setKey_self, habha]
  rfl

end GroqAdapter

/-- C5 (amended).  The claim "sanitizePayload(sanitizePayload x) =
sanitizePayload x for every input x" fails on the code; it holds for
every payload whose `abha_id` field, when present and truthy, has a
string form of at least six characters.  For shorter identifiers the
second application re-truncates the pseudonym (see the
counterexample). -/
theorem claim_C5_amended (x : Json)
    (h : ∀ v, topField "abha_id" x = some v → jsTruthy v = true →
      6 ≤ (jsToString v).data.length) :
    GroqAdapter.sanitizePayload (GroqAdapter.sanitizePayload x) =
      GroqAdapter.sanitizePayload x := by
  cases x with
  | obj kvs => exact congrArg Json.obj (GroqAdapter.sanitizeKVs_idem kvs h)
  | null => rfl
  | bool b => rfl
  | num q => rfl
  | str s => rfl
  | arr es => rfl

/-- C5 counterexample: for the payload `\x7b abha_id: "123" \x7d` the first
sanitization produces the pseudonym `user_123` and the second one
re-truncates it to `user_er_123`, so sanitization is not idempotent as
the claim states. -/
theorem claim_C5_counterexample :
    GroqAdapter.sanitizePayload
        (GroqAdapter.sanitizePayload (Json.obj [("abha_id", Json.str "123")])) ≠
      GroqAdapter.sanitizePayload (Json.obj [("abha_id", Json.str "123")]) := by
  intro h
  have h2 : (some (Json.str "user_er_123") : Option Json) = some (Json.str "user_123") :=
    congrArg (topField "abha_id") h
  have h3 : "user_er_123" = "user_123" := by
    rw [Option.some.injEq, Json.str.injEq] at h2
    exact h2
  exact absurd h3 (by decide)

/-- C5 witness: the amended idempotence theorem applied to a concrete
payload whose identifier has eight characters. -/
theorem claim_C5_witness :
    GroqAdapter.sanitizePayload (GroqAdapter.sanitizePayload
        (Json.obj [("abha_id", Json.str "ABCDEFGH"), ("notes", Json.str "hello")])) =
      GroqAdapter.sanitizePayload
        (Json.obj [("abha_id", Json.str "ABCDEFGH"), ("notes", Json.str "hello")]) := by
  apply claim_C5_amended
  intro v hv htr
  have hv' : some (Json.str "ABCDEFGH") = some v := hv
  cases hv'
  decide

/-- C6 (amended).  Sanitization always removes the top-level `name`,
`email` and `phone` keys; when `abha_id` is present AND truthy its
output value is the fixed tag `user_` followed by at most the last six
characters of the identifier's string form.  (As stated the claim
fails: a present but falsy `abha_id` — e.g. the empty string — is left
unchanged rather than pseudonymized; see the counterexample.) -/
theorem claim_C6_amended (x : Json) :
    (topField "name" (GroqAdapter.sanitizePayload x) = none ∧
     topField "email" (GroqAdapter.sanitizePayload x) = none ∧
     topField "phone" (GroqAdapter.sanitizePayload x) = none) ∧
    ∀ v, topField "abha_id" x = some v → jsTruthy v = true →
      topField "abha_id" (GroqAdapter.sanitizePayload x) =
        some (Json.str ("user_" ++ lastChars 6 (jsToString v))) ∧
      (lastChars 6 (jsToString v)).data.length ≤ 6 := by
  cases x with
  | obj kvs =>
      refine ⟨⟨GroqAdapter.sanitizeKVs_no_name kvs, GroqAdapter.sanitizeKVs_no_email kvs,
        GroqAdapter.sanitizeKVs_no_phone kvs⟩, ?_⟩
      intro v hv ht
      exact ⟨GroqAdapter.sanitizeKVs_abha kvs v hv ht, lastChars_length_le 6 _⟩
  | null => exact ⟨⟨rfl, rfl, rfl⟩, fun v hv _ => by cases hv⟩
  | bool b => exact ⟨⟨rfl, rfl, rfl⟩, fun v hv _ => by cases hv⟩
  | num q => exact ⟨⟨rfl, rfl, rfl⟩, fun v hv _ => by cases hv⟩
  | str s => exact ⟨⟨rfl, rfl, rfl⟩, fun v hv _ => by cases hv⟩
  | arr es => exact ⟨⟨rfl, rfl, rfl⟩, fun v hv _ => by cases hv⟩

/-- C6 counterexample: with `abha_id` present but equal to the empty
string (a falsy value), sanitization leaves the value `""` unchanged,
and `""` does not start with the `user_` tag the claim requires. -/
theorem claim_C6_counterexample :
    topField "abha_id"
        (GroqAdapter.sanitizePayload (Json.obj [("abha_id", Json.str "")])) =
      some (Json.str "") ∧
    String.isPrefixOf "user_" "" = false :=
  ⟨rfl, rfl⟩

/-- C6 witness: the amended theorem applied to a concrete payload
carrying both a name and a truthy eight-character identifier. -/
theorem claim_C6_witness :
    topField "name" (GroqAdapter.sanitizePayload
        (Json.obj [("name", Json.str "Jo"), ("abha_id", Json.str "XYZ12345")])) = none ∧
    topField "abha_id" (GroqAdapter.sanitizePayload
        (Json.obj [("name", Json.str "Jo"), ("abha_id", Json.str "XYZ12345")])) =
      some (Json.str "user_Z12345") := by
  refine ⟨(claim_C6_amended _).1.1, ?_⟩
  exact ((claim_C6_amended (Json.obj [("name", Json.str "Jo"),
    ("abha_id", Json.str "XYZ12345")])).2 (Json.str "XYZ12345") rfl rfl).1

/-- A JavaScript error value as inspected by `withRetries`
(src/services/analyzeService.ts lines 14-19): the fields read are
`err?.response?.status`, `err?.status`, `err?.code` and
`err?.message`. -/
inductive JsVal where
  | num (n : ℤ) : JsVal
  | str (s : String) : JsVal
deriving DecidableEq

structure JsErr where
  responseStatus : Option JsVal
  status : Option JsVal
  code : Option JsVal
  message : String
deriving DecidableEq

/-- JS truthiness of a status-like value. -/
def jsValTruthy : JsVal → Bool
  | .num n => decide (n ≠ 0)
  | .str s => decide (s ≠ "")

/-- First truthy operand of a JS `a || b || c` chain; `none` when every
operand is absent or falsy (in JS the chain then yields its last
operand, which is falsy, and every use in `withRetries` treats falsy
and absent alike). -/
def firstTruthy : List (Option JsVal) → Option JsVal
  | [] => none
  | none :: rest => firstTruthy rest
  | some v :: rest => if jsValTruthy v then some v else firstTruthy rest

/-- The status resolution of `withRetries`
(src/services/analyzeService.ts line 16):
`err?.response?.status || err?.status || err?.code`. -/
def resolveStatus (e : JsErr) : Option JsVal :=
  firstTruthy [e.responseStatus, e.status, e.code]

/-- Substring test (JS `String.prototype.includes`). -/
def containsSub (s pat : String) : Bool :=
  (List.range (s.data.length + 1)).any (fun i => pat.data.isPrefixOf (s.data.drop i))

/-- `isRateLimit` check of `withRetries`
(src/services/analyzeService.ts line 19):
`err?.message?.includes('rate limit') || status === 429`. -/
def isRateLimit (e : JsErr) : Bool :=
  containsSub e.message "rate limit" || decide (resolveStatus e = some (.num 429))

/-- Transient-error classification of `withRetries`
(src/services/analyzeService.ts line 22):
`isRateLimit || (typeof status === 'number' && status >= 500) || !status`. -/
def isTransient (e : JsErr) : Bool :=
  isRateLimit e ||
    (match resolveStatus e with
     | some (.num n) => decide (500 ≤ n)
     | _ => false) ||
    (resolveStatus e).isNone

/-- Observable outcome of a `withRetries` run: the returned value or
thrown error, the number of invocations of the wrapped operation, and
the `setTimeout` sleep durations in order.  The thrown error is
`Option JsErr` because with `retries = 0` the loop body never runs and
the initial `lastErr = null` is thrown. -/
structure RetryTrace (α : Type) where
  result : Except (Option JsErr) α
  calls : ℕ
  delays : List ℕ

namespace AnalyzeService

/-- Loop of `withRetries` (src/services/analyzeService.ts lines 9-33).
`fn i` is the outcome of the `(i+1)`-st invocation of the wrapped
operation, `i` the current loop index and `fuel` the remaining
iterations (`retries - i`).  On a transient error the code sleeps
`baseDelayMs * 2^i` and continues — also on the final iteration, after
which the loop exits and the last error is thrown. -/
def withRetriesGo (fn : ℕ → Except JsErr α) (baseDelayMs : ℕ) :
    ℕ → ℕ → Option JsErr → RetryTrace α
  | _, 0, lastErr => ⟨.error lastErr, 0, []⟩
  | i, fuel + 1, _ =>
      match fn i with
      | .ok v => ⟨.ok v, 1, []⟩
      | .error e =>
          if isTransient e then
            let r := withRetriesGo fn baseDelayMs (i + 1) fuel (some e)
            ⟨r.result, r.calls + 1, (baseDelayMs * 2 ^ i) :: r.delays⟩
          else ⟨.error (some e), 1, []⟩

/-- `withRetries` (src/services/analyzeService.ts lines 9-33); the
source defaults are `retries = 3`, `baseDelayMs = 500`. -/
def withRetries (fn : ℕ → Except JsErr α) (retries baseDelayMs : ℕ) : RetryTrace α :=
  withRetriesGo fn baseDelayMs 0 retries none

end AnalyzeService

/-- C3: whenever the wrapped operation fails on its first invocation
with a non-transient error — an error whose resolved status is a
number other than 429 and below 500, and whose message does not
contain "rate limit" — `withRetries` invokes the operation exactly
once, performs zero delays, and rethrows that error. -/
theorem claim_C3 {α : Type} (fn : ℕ → Except JsErr α) (e : JsErr)
    (retries baseDelayMs : ℕ) (n : ℤ)
    (hr : 0 < retries)
    (hfn : fn 0 = .error e)
    (hst : resolveStatus e = some (.num n))
    (h429 : n ≠ 429)
    (h500 : n < 500)
    (hmsg : containsSub e.message "rate limit" = false) :
    AnalyzeService.withRetries fn retries baseDelayMs =
      ⟨.error (some e), 1, []⟩ := by
  have hrl : isRateLimit e = false := by
    unfold isRateLimit
    rw [hst, hmsg]
    simp only [Bool.false_or]
    exact decide_eq_false (by simp [h429])
  have htr : isTransient e = false := by
    unfold isTransient
    rw [hrl, hst]
    simp only [Bool.false_or, Option.isNone_some, Bool.or_false]
    show decide (500 ≤ n) = false
    exact decide_eq_false (by omega)
  obtain ⟨f, rfl⟩ : ∃ f, retries = f + 1 := ⟨retries - 1, by omega⟩
  unfold AnalyzeService.withRetries AnalyzeService.withRetriesGo
  rw [hfn]
  simp [htr]

/-- C3 witness: a 404 error is rethrown after a single invocation with
no delay. -/
theorem claim_C3_witness :
    AnalyzeService.withRetries
        (fun _ => (.error ⟨none, some (.num 404), none, "Not Found"⟩ : Except JsErr ℕ))
        3 500 =
      ⟨.error (some ⟨none, some (.num 404), none, "Not Found"⟩), 1, []⟩ :=
  claim_C3 _ _ 3 500 404 (by decide) rfl rfl (by decide) (by decide) rfl

theorem withRetriesGo_spec {α : Type} (fn : ℕ → Except JsErr α) (b : ℕ) (v : α)
    (errs : ℕ → JsErr) :
    ∀ (k i fuel : ℕ) (last : Option JsErr), k < fuel →
    (∀ j, j < k → fn (i + j) = .error (errs (i + j))) →
    (∀ j, j < k → isTransient (errs (i + j)) = true) →
    fn (i + k) = .ok v →
    AnalyzeService.withRetriesGo fn b i fuel last =
      ⟨.ok v, k + 1, (List.range k).map (fun j => b * 2 ^ (i + j))⟩ := by
  intro k
  induction k with
  | zero =>
      intro i fuel last hlt _ _ hsucc
      obtain ⟨f, rfl⟩ : ∃ f, fuel = f + 1 := ⟨fuel - 1, by omega⟩
      unfold AnalyzeService.withRetriesGo
      rw [show fn i = .ok v from hsucc]
      rfl
  | succ k ih =>
      intro i fuel last hlt hfail htrans hsucc
      obtain ⟨f, rfl⟩ : ∃ f, fuel = f + 1 := ⟨fuel - 1, by omega⟩
      have hf0 : fn i = .error (errs i) := by simpa using hfail 0 (by omega)
      have ht0 : isTransient (errs i) = true := by simpa using htrans 0 (by omega)
      have hrec := ih (i + 1) f (some (errs i)) (by omega)
        (by
          intro j hj
          have := hfail (j + 1) (by omega)
          rwa [show i + (j + 1) = i + 1 + j from by omega] at this)
        (by
          intro j hj
          have := htrans (j + 1) (by omega)
          rwa [show i + (j + 1) = i + 1 + j from by omega] at this)
        (by rwa [show i + 1 + k = i + (k + 1) from by omega])
      unfold AnalyzeService.withRetriesGo
      rw [hf0]
      simp only [ht0, if_true]
      rw [hrec]
      refine congrArg (RetryTrace.mk (.ok v) (k + 1 + 1)) ?_
      rw [List.range_succ_eq_map, List.map_cons, List.map_map]
      refine congrArg₂ List.cons (by rw [Nat.add_zero]) ?_
      apply List.map_congr_left
      intro a _
      show b * 2 ^ (i + 1 + a) = b * 2 ^ (i + (a + 1))
      rw [show i + 1 + a = i + (a + 1) from by omega]

/-- C4: whenever the operation fails with transient errors on its
first `k` invocations and succeeds on invocation `k+1`, with
`k < retries` (the source default is `retries = 3`), `withRetries`
returns the success value, invokes the operation exactly `k+1` times,
and sleeps exactly `k` times with the backoff durations
`baseDelayMs * 2^i` for `i = 0 .. k-1`. -/
theorem claim_C4 {α : Type} (fn : ℕ → Except JsErr α) (v : α) (errs : ℕ → JsErr)
    (k retries baseDelayMs : ℕ)
    (hk : k < retries)
    (hfail : ∀ j, j < k → fn j = .error (errs j))
    (htrans : ∀ j, j < k → isTransient (errs j) = true)
    (hsucc : fn k = .ok v) :
    AnalyzeService.withRetries fn retries baseDelayMs =
      ⟨.ok v, k + 1, (List.range k).map (fun i => baseDelayMs * 2 ^ i)⟩ := by
  have h := withRetriesGo_spec fn baseDelayMs v errs k 0 retries none hk
    (by intro j hj; simpa using hfail j hj)
    (by intro j hj; simpa using htrans j hj)
    (by simpa using hsucc)
  unfold AnalyzeService.withRetries
  rw [h]
  refine congrArg (RetryTrace.mk (.ok v) (k + 1)) ?_
  apply List.map_congr_left
  intro a _
  rw [Nat.zero_add]

/-- C4 witness: two transient network failures (no status at all)
followed by a success, with the default configuration `retries = 3`,
`baseDelayMs = 500`: the wrapper returns the value after three
invocations and the two delays 500 ms and 1000 ms. -/
theorem claim_C4_witness :
    AnalyzeService.withRetries
        (fun i => if i < 2
          then (.error ⟨none, none, none, "socket hang up"⟩ : Except JsErr ℕ)
          else .ok 7)
        3 500 =
      ⟨.ok 7, 3, [500, 1000]⟩ :=
  claim_C4
    (fun i => if i < 2
      then (.error ⟨none, none, none, "socket hang up"⟩ : Except JsErr ℕ)
      else .ok 7)
    7 (fun _ => ⟨none, none, none, "socket hang up"⟩) 2 3 500
    (by omega)
    (by intro j hj; interval_cases j <;> rfl)
    (by intro j hj; interval_cases j <;> rfl)
    rfl

/-- A prediction as validated by the zod `Pred` schema
(src/unnamed/part_000 lines 29-37; the stricter service variant
additionally constrains `years`, see `AnalyzeService.parsePredStrict`).
Zod strips unknown keys, so the validated value has exactly these
fields; `Option` marks `.optional()` fields (absent keys). -/
structure Prediction where
  condition : String
  years : ℚ
  probability_pct : ℚ
  rationale : Option String
  preventable : Option Bool
  interventions : Option (List String)
  citations : Option (List String)
deriving DecidableEq

/-- One explainability feature: `\x7b feature, impact \x7d`. -/
structure Feature where
  feature : String
  impact : ℚ
deriving DecidableEq

/-- The `explainability` block: `\x7b top_features: [...] \x7d`. -/
structure Explain where
  top_features : List Feature
deriving DecidableEq

/-- One entry of the `deltas` array of the v2 schema
(src/unnamed/part_000 lines 49-54). -/
structure DeltaEntry where
  condition : String
  baseline_pct : ℚ
  projection_pct : ℚ
  delta_pct : ℚ
deriving DecidableEq

/-- zod `z.string()` on field `k`: present and a string, else fail. -/
def reqStr (kvs : List (String × Json)) (k : String) : Option String :=
  match lookupKey k kvs with
  | some (Json.str s) => some s
  | _ => none

/-- zod `z.number()` on field `k`. -/
def reqNum (kvs : List (String × Json)) (k : String) : Option ℚ :=
  match lookupKey k kvs with
  | some (Json.num q) => some q
  | _ => none

/-- zod `z.string().optional()`: absent is fine, present must be a
string (`null` or any other type fails). -/
def optStr (kvs : List (String × Json)) (k : String) : Option (Option String) :=
  match lookupKey k kvs with
  | none => some none
  | some (Json.str s) => some (some s)
  | some _ => none

/-- zod `z.boolean().optional()`. -/
def optBool (kvs : List (String × Json)) (k : String) : Option (Option Bool) :=
  match lookupKey k kvs with
  | none => some none
  | some (Json.bool b) => some (some b)
  | some _ => none

/-- zod `z.array(z.string()).optional()`. -/
def optStrList (kvs : List (String × Json)) (k : String) : Option (Option (List String)) :=
  match lookupKey k kvs with
  | none => some none
  | some (Json.arr l) =>
      (l.mapM (fun j => match j with | Json.str s => some s | _ => none)).map some
  | some _ => none

/-- zod `Pred.safeParse` (src/unnamed/part_000 lines 29-37). -/
def parsePred : Json → Option Prediction
  | .obj kvs => do
      let condition ← reqStr kvs "condition"
      let years ← reqNum kvs "years"
      let probability_pct ← reqNum kvs "probability_pct"
      let rationale ← optStr kvs "rationale"
      let preventable ← optBool kvs "preventable"
      let interventions ← optStrList kvs "interventions"
      let citations ← optStrList kvs "citations"
      pure ⟨condition, years, probability_pct, rationale, preventable,
        interventions, citations⟩
  | _ => none

/-- zod `\x7b feature: z.string(), impact: z.number() \x7d`. -/
def parseFeature : Json → Option Feature
  | .obj kvs => do
      let f ← reqStr kvs "feature"
      let i ← reqNum kvs "impact"
      pure ⟨f, i⟩
  | _ => none

/-- zod explainability object schema
(src/unnamed/part_000 lines 55-57). -/
def parseExplain : Json → Option Explain
  | .obj kvs =>
      match lookupKey "top_features" kvs with
      | some (Json.arr l) => (l.mapM parseFeature).map Explain.mk
      | _ => none
  | _ => none

/-- zod optional explainability field of the typed schemas. -/
def optExplain (kvs : List (String × Json)) : Option (Option Explain) :=
  match lookupKey "explainability" kvs with
  | none => some none
  | some j => (parseExplain j).map some

/-- zod delta entry schema (src/unnamed/part_000 lines 49-54). -/
def parseDeltaEntry : Json → Option DeltaEntry
  | .obj kvs => do
      let c ← reqStr kvs "condition"
      let b ← reqNum kvs "baseline_pct"
      let p ← reqNum kvs "projection_pct"
      let d ← reqNum kvs "delta_pct"
      pure ⟨c, b, p, d⟩
  | _ => none

namespace Part000

/-- The validated `AnalysisV2` document (src/unnamed/part_000 lines
39-58).  `baseline`/`projection` are optional objects holding a
required `predictions` array; zod strips the wrapper, so they are
modelled as optional prediction lists. -/
structure AnalysisV2 where
  model_version : String
  generated_on : String
  summary : Option String
  baseline : Option (List Prediction)
  projection : Option (List Prediction)
  deltas : Option (List DeltaEntry)
  explainability : Option Explain
deriving DecidableEq

/-- The validated `LegacyAnalysis` document (src/unnamed/part_000
lines 61-67): every field optional; `explainability` is `z.any()` and
keeps its raw JSON value. -/
structure LegacyAnalysis where
  model_version : Option String
  generated_on : Option String
  summary : Option String
  predictions : Option (List Prediction)
  explainability : Option Json

/-- zod `z.object(\x7b predictions: z.array(Pred) \x7d).optional()`. -/
def optPredSet (kvs : List (String × Json)) (k : String) :
    Option (Option (List Prediction)) :=
  match lookupKey k kvs with
  | none => some none
  | some (Json.obj inner) =>
      (match lookupKey "predictions" inner with
       | some (Json.arr l) => l.mapM parsePred
       | _ => none).map some
  | some _ => none

/-- zod `z.array(...).optional()` for deltas. -/
def optDeltas (kvs : List (String × Json)) : Option (Option (List DeltaEntry)) :=
  match lookupKey "deltas" kvs with
  | none => some none
  | some (Json.arr l) => (l.mapM parseDeltaEntry).map some
  | some _ => none

/-- zod `z.array(Pred).optional()` for legacy predictions. -/
def optPredArray (kvs : List (String × Json)) (k : String) :
    Option (Option (List Prediction)) :=
  match lookupKey k kvs with
  | none => some none
  | some (Json.arr l) => (l.mapM parsePred).map some
  | some _ => none

/-- `AnalysisV2.safeParse` (src/unnamed/part_000 lines 39-58). -/
def parseV2 : Json → Option AnalysisV2
  | .obj kvs => do
      let mv ← reqStr kvs "model_version"
      let go ← reqStr kvs "generated_on"
      let summary ← optStr kvs "summary"
      let baseline ← optPredSet kvs "baseline"
      let projection ← optPredSet kvs "projection"
      let deltas ← optDeltas kvs
      let explainability ← optExplain kvs
      pure ⟨mv, go, summary, baseline, projection, deltas, explainability⟩
  | _ => none

/-- `LegacyAnalysis.safeParse` (src/unnamed/part_000 lines 61-67). -/
def parseLegacy : Json → Option LegacyAnalysis
  | .obj kvs => do
      let mv ← optStr kvs "model_version"
      let go ← optStr kvs "generated_on"
      let summary ← optStr kvs "summary"
      let predictions ← optPredArray kvs "predictions"
      pure ⟨mv, go, summary, predictions, lookupKey "explainability" kvs⟩
  | _ => none

/-- JS `o || d` on a possibly-absent string: absent and the falsy `""`
both fall back to the default. -/
def strOr (o : Option String) (d : String) : String :=
  match o with
  | some s => if s = "" then d else s
  | none => d

/-- JS `o || d` on a possibly-absent JSON value. -/
def jsonOr (o : Option Json) (d : Json) : Json :=
  match o with
  | some v => if jsTruthy v then v else d
  | none => d

/-- The current-shape object built by the legacy fallback of
`analyzeMerged` (src/unnamed/part_000 lines 102-117). -/
structure UpgradedAnalysis where
  model_version : String
  generated_on : String
  summary : String
  baseline : List Prediction
  projection : List Prediction
  deltas : List DeltaEntry
  explainability : Json

/-- The legacy-to-v2 conversion of `analyzeMerged`
(src/unnamed/part_000 lines 101-117).  `now` stands for
`new Date().toISOString()`.  Since validated predictions always carry
`probability_pct`, the JS chain
`p.probability_pct ?? p.probability ?? 0` always yields
`p.probability_pct`. -/
def upgradeLegacy (l : LegacyAnalysis) (now : String) : UpgradedAnalysis :=
  { model_version := strOr l.model_version "unknown-legacy"
    generated_on := strOr l.generated_on now
    summary := strOr l.summary ""
    baseline := []
    projection := l.predictions.getD []
    deltas := (l.predictions.getD []).map
      (fun p => ⟨p.condition, -1, p.probability_pct, -1⟩)
    explainability := jsonOr l.explainability (Json.obj []) }

/-- Result of the normalization chain of `analyzeMerged`
(src/unnamed/part_000 lines 90-125): either a clean v2 document or an
upgraded legacy document. -/
inductive NormOut where
  | v2 (a : AnalysisV2)
  | upgraded (u : UpgradedAnalysis)

/-- The typed failure of the normalization chain: neither schema
validated; the raw response is carried for diagnostics (the source
logs `\x7b raw \x7d` and throws at src/unnamed/part_000 lines 122-124). -/
inductive NormErr where
  | invalidModelOutput (raw : Json)

/-- Normalization chain of `analyzeMerged` (src/unnamed/part_000 lines
90-125): try `AnalysisV2`, then `LegacyAnalysis` with conversion, else
fail with the raw response attached. -/
def normalizeResponse (raw : Json) (now : String) : Except NormErr NormOut :=
  match parseV2 raw with
  | some a => .ok (.v2 a)
  | none =>
      match parseLegacy raw with
      | some l => .ok (.upgraded (upgradeLegacy l now))
      | none => .error (.invalidModelOutput raw)

end Part000

/-- C1: whenever the model response fails `AnalysisV2` validation and
passes `LegacyAnalysis` validation with a present list of `N`
predictions, the shape upgrader of `analyzeMerged` returns a
current-shape result whose projection has length `N`, whose baseline
is empty, and whose deltas list has length `N` with every entry's
`baseline_pct` and `delta_pct` equal to `-1`. -/
theorem claim_C1 (raw : Json) (now : String) (l : Part000.LegacyAnalysis)
    (ps : List Prediction)
    (hv2 : Part000.parseV2 raw = none)
    (hleg : Part000.parseLegacy raw = some l)
    (hps : l.predictions = some ps) :
    ∃ u, Part000.normalizeResponse raw now = .ok (.upgraded u) ∧
      u.projection.length = ps.length ∧
      u.baseline = [] ∧
      u.deltas.length = ps.length ∧
      ∀ d ∈ u.deltas, d.baseline_pct = -1 ∧ d.delta_pct = -1 := by
  refine ⟨Part000.upgradeLegacy l now, ?_, ?_, rfl, ?_, ?_⟩
  · unfold Part000.normalizeResponse
    rw [hv2, hleg]
  · show (l.predictions.getD []).length = ps.length
    rw [hps]
    rfl
  · show ((l.predictions.getD []).map _).length = ps.length
    rw [hps]
    simp
  · intro d hd
    rw [show (Part000.upgradeLegacy l now).deltas = (l.predictions.getD []).map
      (fun p => (⟨p.condition, -1, p.probability_pct, -1⟩ : DeltaEntry)) from rfl, hps] at hd
    simp only [Option.getD_some, List.mem_map] at hd
    obtain ⟨p, _, rfl⟩ := hd
    exact ⟨rfl, rfl⟩

/-- C1 witness: a legacy-only response with one prediction is upgraded
to a current-shape result with one projection entry, empty baseline
and one delta whose baseline and delta percentages are both -1. -/
theorem claim_C1_witness :
    ∃ u, Part000.normalizeResponse
        (Json.obj [("predictions", Json.arr [Json.obj [("condition", Json.str "T2D"),
          ("years", Json.num 2), ("probability_pct", Json.num 40)]])])
        "2024-01-01T00:00:00Z" = .ok (.upgraded u) ∧
      u.projection.length = 1 ∧
      u.baseline = [] ∧
      u.deltas.length = 1 ∧
      ∀ d ∈ u.deltas, d.baseline_pct = -1 ∧ d.delta_pct = -1 :=
  claim_C1 _ _ ⟨none, none, none, some [⟨"T2D", 2, 40, none, none, none, none⟩], none⟩
    [⟨"T2D", 2, 40, none, none, none, none⟩] rfl rfl rfl

/-- C2: whenever the model response fails validation against both the
`AnalysisV2` shape and the `LegacyAnalysis` shape, the normalization
chain of `analyzeMerged` fails with the typed `invalidModelOutput`
error carrying the raw response, and returns no result. -/
theorem claim_C2 (raw : Json) (now : String)
    (hv2 : Part000.parseV2 raw = none)
    (hleg : Part000.parseLegacy raw = none) :
    Part000.normalizeResponse raw now =
      .error (.invalidModelOutput raw) := by
  unfold Part000.normalizeResponse
  rw [hv2, hleg]

/-- C2 witness: `\x7b predictions: 5 \x7d` is valid JSON but fails both
shapes (v2 lacks the required `model_version`; legacy has a
non-array `predictions`), so the normalizer fails with the raw
document attached. -/
theorem claim_C2_witness :
    Part000.normalizeResponse (Json.obj [("predictions", Json.num 5)]) "2024-01-01" =
      .error (.invalidModelOutput (Json.obj [("predictions", Json.num 5)])) :=
  claim_C2 _ _ rfl rfl

namespace AnalyzeService

/-- zod `PredictionSchema.safeParse`
(src/services/analyzeService.ts lines 39-47): like `Pred` but `years`
is `z.number().int().nonnegative()`. -/
def parsePredStrict (j : Json) : Option Prediction := do
  let p ← parsePred j
  if p.years.den = 1 ∧ 0 ≤ p.years then pure p else none

/-- The validated `AnalysisSchema` document
(src/services/analyzeService.ts lines 49-57): flat required
`predictions` list. -/
structure Analysis where
  model_version : String
  generated_on : String
  summary : Option String
  predictions : List Prediction
  explainability : Option Explain
deriving DecidableEq

/-- `AnalysisSchema.safeParse` (src/services/analyzeService.ts lines
49-57). -/
def parseAnalysis : Json → Option Analysis
  | .obj kvs => do
      let mv ← reqStr kvs "model_version"
      let go ← reqStr kvs "generated_on"
      let summary ← optStr kvs "summary"
      let predictions ← match lookupKey "predictions" kvs with
        | some (Json.arr l) => l.mapM parsePredStrict
        | _ => none
      let explainability ← optExplain kvs
      pure ⟨mv, go, summary, predictions, explainability⟩
  | _ => none

/-- JS `Math.round(q * 10) / 10` (src/services/analyzeService.ts line
107).  `Math.round x = ⌊x + 1/2⌋` (halves round toward +∞). -/
def round1 (q : ℚ) : ℚ := (⌊q * 10 + 1 / 2⌋ : ℤ) / 10

/-- The per-prediction normalization of `analyzeMerged`
(src/services/analyzeService.ts lines 103-109); after zod validation
`probability_pct` is always a number, so the `typeof` guard always
takes the rounding branch. -/
def roundPred (p : Prediction) : Prediction :=
  { p with probability_pct := round1 p.probability_pct }

/-- The post-validation normalization of `analyzeMerged`
(src/services/analyzeService.ts lines 101-113): round probabilities,
then backfill `model_version` and `generated_on` when falsy.
`envModel` stands for `process.env.GROQ_MODEL ||
'llama-3.2-70b-versatile'` and `now` for `new Date().toISOString()`. -/
def normalizeAnalysis (a : Analysis) (envModel now : String) : Analysis :=
  let a1 : Analysis := { a with predictions := a.predictions.map roundPred }
  { a1 with
    model_version := if a1.model_version = "" then envModel else a1.model_version
    generated_on := if a1.generated_on = "" then now else a1.generated_on }

/-- The typed failures of `analyzeMerged`
(src/services/analyzeService.ts): the guard throw, a propagated
upstream error, or the schema failure (which the source logs together
with the raw result before throwing). -/
inductive SvcErr where
  | missingInput
  | upstream (e : Option JsErr)
  | invalidOutput (raw : Json)

/-- Validation plus normalization applied to the raw model output
(src/services/analyzeService.ts lines 94-113). -/
def parseAndNormalize (raw : Json) (envModel now : String) : Except SvcErr Analysis :=
  match parseAnalysis raw with
  | none => .error (.invalidOutput raw)
  | some a => .ok (normalizeAnalysis a envModel now)

/-- Observable outcome of one `analyzeMerged` call: result or thrown
error, number of invocations of `analyzeWithGroq`, and sleep
durations. -/
structure SvcOut where
  result : Except SvcErr Analysis
  calls : ℕ
  delays : List ℕ

/-- `analyzeMerged` (src/services/analyzeService.ts lines 67-122).
`fn i` is the outcome of the `(i+1)`-st `analyzeWithGroq` call (the
oracle stands for the external transport applied to the sanitized
payload); the guard `if (!mergedPayload) throw` runs before any
upstream call. -/
def analyzeMerged (mergedPayload : Json) (fn : ℕ → Except JsErr Json)
    (retries baseDelayMs : ℕ) (envModel now : String) : SvcOut :=
  if jsTruthy mergedPayload then
    let t := withRetries fn retries baseDelayMs
    match t.result with
    | .error e => ⟨.error (.upstream e), t.calls, t.delays⟩
    | .ok raw => ⟨parseAndNormalize raw envModel now, t.calls, t.delays⟩
  else ⟨.error .missingInput, 0, []⟩

end AnalyzeService

/-- C9: a falsy (absent) merged payload makes `analyzeMerged` fail
immediately with the missing-input error, with zero invocations of the
external prediction service and zero delays. -/
theorem claim_C9 (payload : Json) (fn : ℕ → Except JsErr Json)
    (retries baseDelayMs : ℕ) (envModel now : String)
    (h : jsTruthy payload = false) :
    AnalyzeService.analyzeMerged payload fn retries baseDelayMs envModel now =
      ⟨.error .missingInput, 0, []⟩ := by
  unfold AnalyzeService.analyzeMerged
  rw [h]
  simp

/-- C9 witness: with a null payload the call fails immediately even
though the oracle would answer, and no attempt or delay happens. -/
theorem claim_C9_witness :
    AnalyzeService.analyzeMerged Json.null (fun _ => .ok (Json.obj []))
        3 500 "llama-3.2-70b-versatile" "2024-01-01" =
      ⟨.error .missingInput, 0, []⟩ :=
  claim_C9 Json.null _ 3 500 _ _ rfl

/-- C8 (amended): a model response that validates against the current
shape with non-empty (truthy) `model_version` and `generated_on` is
returned with all validated fields unchanged except that each
prediction's `probability_pct` is rounded to one decimal place.  (As
stated the claim fails: an empty `model_version` or `generated_on`
validates against the schema but is replaced by a default value, a
change beyond the probability rounding; see the counterexample.) -/
theorem claim_C8_amended (raw : Json) (a : AnalyzeService.Analysis)
    (envModel now : String)
    (hparse : AnalyzeService.parseAnalysis raw = some a)
    (hmv : a.model_version ≠ "")
    (hgo : a.generated_on ≠ "") :
    AnalyzeService.parseAndNormalize raw envModel now =
      .ok { a with predictions := a.predictions.map AnalyzeService.roundPred } := by
  unfold AnalyzeService.parseAndNormalize
  rw [hparse]
  unfold AnalyzeService.normalizeAnalysis
  simp [hmv, hgo]

/-- C8 counterexample: the document with `model_version: ""`,
`generated_on: "2024-05-01"` and no predictions validates against the
current shape, yet the normalizer replaces its `model_version` with
the default model name — a field change beyond the one-decimal
probability rounding, so the claim as stated is false. -/
theorem claim_C8_counterexample :
    AnalyzeService.parseAnalysis (Json.obj [("model_version", Json.str ""),
        ("generated_on", Json.str "2024-05-01"), ("predictions", Json.arr [])]) =
      some ⟨"", "2024-05-01", none, [], none⟩ ∧
    AnalyzeService.parseAndNormalize (Json.obj [("model_version", Json.str ""),
        ("generated_on", Json.str "2024-05-01"), ("predictions", Json.arr [])])
        "llama-3.2-70b-versatile" "2024-05-02" =
      .ok ⟨"llama-3.2-70b-versatile", "2024-05-01", none, [], none⟩ ∧
    ("llama-3.2-70b-versatile" : String) ≠ "" :=
  ⟨rfl, rfl, by decide⟩

/-- C8 witness: a valid response with one prediction at 40.55 percent
and truthy metadata is normalized to the same document with the
probability rounded to 40.6. -/
theorem claim_C8_witness :
    AnalyzeService.parseAndNormalize
        (Json.obj [("model_version", Json.str "m1"), ("generated_on", Json.str "g1"),
          ("predictions", Json.arr [Json.obj [("condition", Json.str "CVD"),
            ("years", Json.num 5), ("probability_pct", Json.num (811 / 20))]])])
        "llama-3.2-70b-versatile" "2024-05-02" =
      .ok ⟨"m1", "g1", none, [⟨"CVD", 5, 203 / 5, none, none, none, none⟩], none⟩ := by
  rw [claim_C8_amended
    (Json.obj [("model_version", Json.str "m1"), ("generated_on", Json.str "g1"),
      ("predictions", Json.arr [Json.obj [("condition", Json.str "CVD"),
        ("years", Json.num 5), ("probability_pct", Json.num (811 / 20))]])])
    ⟨"m1", "g1", none, [⟨"CVD", 5, 811 / 20, none, none, none, none⟩], none⟩
    "llama-3.2-70b-versatile" "2024-05-02" rfl (by decide) (by decide)]
  have hr : AnalyzeService.round1 (811 / 20) = 203 / 5 := by
    unfold AnalyzeService.round1
    norm_num
  simp [AnalyzeService.roundPred, hr]

namespace AnalyzeService

/-- Consecutive slices of the batch loop of `analyzeBatch`
(src/services/analyzeService.ts line 164-165):
`analyses.slice(i, i + batchSize)` for `i = 0, bs, 2bs, ...`.  For
`bs ≥ 1` this is exactly the JS slicing; the degenerate `bs = 0`
(on which the JS loop never terminates) is modelled as slice size 1
and excluded by the hypothesis of the batch theorem. -/
def chunks {β : Type} (bs : ℕ) : List β → List (List β)
  | [] => []
  | x :: xs => (x :: xs.take (bs - 1)) :: chunks bs (xs.drop (bs - 1))
termination_by l => l.length
decreasing_by
  simp only [List.length_drop, List.length_cons]
  omega

/-- One request of `analyzeBatch`: the merged payload and the
transport oracle of its `analyzeMerged` call. -/
structure BatchReq where
  mergedPayload : Json
  fn : ℕ → Except JsErr Json

/-- The outcome of one batched `analyzeMerged` call
(src/services/analyzeService.ts line 169-171, which passes no options,
so the source defaults `retries = 3`, `baseDelayMs = 500` apply). -/
def runOne (r : BatchReq) (envModel now : String) : Except SvcErr Analysis :=
  (analyzeMerged r.mergedPayload r.fn 3 500 envModel now).result

/-- `analyzeBatch` (src/services/analyzeService.ts lines 153-194):
process the requests in slices of `batchSize` via
`Promise.allSettled`, pushing the fulfilled value or `null` per
request in order.  `delayMs` is the fixed pause slept between batches
(line 188-190), an effect with no influence on the returned array. -/
def analyzeBatch (reqs : List BatchReq) (batchSize delayMs : ℕ)
    (envModel now : String) : List (Option Analysis) :=
  ((chunks batchSize reqs).map
    (fun batch => batch.map (fun r => (runOne r envModel now).toOption))).flatten

theorem chunks_flatten {β : Type} (bs : ℕ) :
    ∀ (n : ℕ) (l : List β), l.length ≤ n → (chunks bs l).flatten = l := by
  intro n
  induction n with
  | zero =>
      intro l hl
      have hnil : l = [] := List.eq_nil_of_length_eq_zero (by omega)
      subst hnil
      simp [chunks]
  | succ n ih =>
      intro l hl
      cases l with
      | nil => simp [chunks]
      | cons x xs =>
          have hlen : (xs.drop (bs - 1)).length ≤ n := by
            rw [List.length_drop]
            simp only [List.length_cons] at hl
            omega
          rw [show chunks bs (x :: xs) =
            (x :: xs.take (bs - 1)) :: chunks bs (xs.drop (bs - 1)) by simp [chunks]]
          rw [List.flatten_cons, ih (xs.drop (bs - 1)) hlen, List.cons_append,
            List.take_append_drop]

end AnalyzeService

/-- C10: for every positive batch size, `analyzeBatch` returns an
array of exactly the input's length in input order, where position `i`
holds the analysis result when request `i` succeeded and `null`
(modelled `none`) when it failed; a failing request only contributes
its own `null` and never prevents the other requests, in the same or a
later batch, from contributing their own entries. -/
theorem claim_C10 (reqs : List AnalyzeService.BatchReq)
    (batchSize delayMs : ℕ) (envModel now : String)
    (hbs : 0 < batchSize) :
    AnalyzeService.analyzeBatch reqs batchSize delayMs envModel now =
      reqs.map (fun r => (AnalyzeService.runOne r envModel now).toOption) ∧
    (AnalyzeService.analyzeBatch reqs batchSize delayMs envModel now).length =
      reqs.length := by
  have h1 : AnalyzeService.analyzeBatch reqs batchSize delayMs envModel now =
      reqs.map (fun r => (AnalyzeService.runOne r envModel now).toOption) := by
    unfold AnalyzeService.analyzeBatch
    rw [← List.map_flatten,
      AnalyzeService.chunks_flatten batchSize reqs.length reqs le_rfl]
  exact ⟨h1, by rw [h1, List.length_map]⟩

/-- C10 witness: a batch of two requests where the first fails (null
payload) and the second succeeds yields `[none, some analysis]` — the
failure does not prevent the second request from being processed. -/
theorem claim_C10_witness :
    AnalyzeService.analyzeBatch
        [⟨Json.null, fun _ => .ok (Json.obj [])⟩,
         ⟨Json.obj [("bmi", Json.num 31)], fun _ => .ok (Json.obj
           [("model_version", Json.str "m"), ("generated_on", Json.str "g"),
            ("predictions", Json.arr [])])⟩]
        5 2000 "llama-3.2-70b-versatile" "2024-01-01" =
      [none, some ⟨"m", "g", none, [], none⟩] := by
  rw [(claim_C10 _ 5 2000 "llama-3.2-70b-versatile" "2024-01-01" (by decide)).1]
  rfl

/-! JSON text parsing, modelling `JSON.parse` on the fragment the
adapter handles (src/services/groqAdapter.ts lines 160-175).  The
parser is fueled; `\uXXXX` escapes are outside the modelled
fragment. -/

def isWsChar (c : Char) : Bool := c = ' ' || c = '\t' || c = '\n' || c = '\r'

def skipWs (cs : List Char) : List Char := cs.dropWhile isWsChar

def isDigitChar (c : Char) : Bool := '0' ≤ c && c ≤ '9'

def digitsToNat (ds : List Char) : ℕ := ds.foldl (fun a c => a * 10 + (c.toNat - 48)) 0

/-- JSON string escapes (`\uXXXX` excluded). -/
def decodeEscape (c : Char) : Option Char :=
  if c = '"' then some '"'
  else if c = '\\' then some '\\'
  else if c = '/' then some '/'
  else if c = 'n' then some '\n'
  else if c = 't' then some '\t'
  else if c = 'r' then some '\r'
  else if c = 'b' then some (Char.ofNat 8)
  else if c = 'f' then some (Char.ofNat 12)
  else none

/-- Parse the body of a JSON string after the opening quote; returns
the decoded string and the input after the closing quote. -/
def parseStringBody : ℕ → List Char → Option (String × List Char)
  | 0, _ => none
  | _ + 1, [] => none
  | fuel + 1, c :: cs =>
      if c = '"' then some ("", cs)
      else if c = '\\' then
        match cs with
        | [] => none
        | e :: cs2 =>
            match decodeEscape e with
            | some d => (parseStringBody fuel cs2).map (fun r => (⟨d :: r.1.data⟩, r.2))
            | none => none
      else if c.toNat < 32 then none
      else (parseStringBody fuel cs).map (fun r => (⟨c :: r.1.data⟩, r.2))

/-- Parse a JSON number (grammar `-? int frac? exp?`, no leading
zeros), starting at a `-` or digit. -/
def parseNumber (cs : List Char) : Option (ℚ × List Char) :=
  let sgn : Bool × List Char :=
    match cs with
    | c :: rest => if c = '-' then (true, rest) else (false, cs)
    | [] => (false, cs)
  let neg := sgn.1
  let cs1 := sgn.2
  let intDigits := cs1.takeWhile isDigitChar
  let cs2 := cs1.dropWhile isDigitChar
  if intDigits.isEmpty then none
  else if intDigits.length > 1 && intDigits.headD '0' = '0' then none
  else
    let stepFrac : Option (List Char × List Char) :=
      match cs2 with
      | '.' :: rest =>
          let fd := rest.takeWhile isDigitChar
          if fd.isEmpty then none else some (fd, rest.dropWhile isDigitChar)
      | _ => some ([], cs2)
    match stepFrac with
    | none => none
    | some (fracDigits, cs3) =>
        let stepExp : Option (Bool × List Char × List Char) :=
          match cs3 with
          | c :: rest =>
              if c = 'e' ∨ c = 'E' then
                match rest with
                | s :: rest2 =>
                    if s = '+' then
                      let ed := rest2.takeWhile isDigitChar
                      if ed.isEmpty then none
                      else some (false, ed, rest2.dropWhile isDigitChar)
                    else if s = '-' then
                      let ed := rest2.takeWhile isDigitChar
                      if ed.isEmpty then none
                      else some (true, ed, rest2.dropWhile isDigitChar)
                    else
                      let ed := rest.takeWhile isDigitChar
                      if ed.isEmpty then none
                      else some (false, ed, rest.dropWhile isDigitChar)
                | [] => none
              else some (false, [], cs3)
          | [] => some (false, [], cs3)
        match stepExp with
        | none => none
        | some (expNeg, expDigits, cs4) =>
            let mantissa : ℚ :=
              (digitsToNat (intDigits ++ fracDigits) : ℚ) / (10 : ℚ) ^ fracDigits.length
            let e : ℕ := digitsToNat expDigits
            let scaled : ℚ :=
              if expNeg then mantissa / (10 : ℚ) ^ e else mantissa * (10 : ℚ) ^ e
            some ((if neg then -scaled else scaled), cs4)

/-- JS object member insertion: a duplicate key keeps the position of
its first occurrence and the value of its last occurrence.  `l` is the
already-collapsed tail, so its value for `k` (being textually later)
wins. -/
def addMember (k : String) (v : Json) (l : List (String × Json)) : List (String × Json) :=
  match lookupKey k l with
  | some w => (k, w) :: eraseKey k l
  | none => (k, v) :: l

mutual

/-- Parse one JSON value, returning it and the remaining input. -/
def parseVal : ℕ → List Char → Option (Json × List Char)
  | 0, _ => none
  | fuel + 1, cs =>
      match skipWs cs with
      | [] => none
      | c :: rest =>
          if c = '"' then
            (parseStringBody (rest.length + 1) rest).map (fun r => (Json.str r.1, r.2))
          else if c = '{' then
            match skipWs rest with
            | '}' :: rest2 => some (Json.obj [], rest2)
            | rest2 => (parseMembers fuel rest2).map (fun r => (Json.obj r.1, r.2))
          else if c = '[' then
            match skipWs rest with
            | ']' :: rest2 => some (Json.arr [], rest2)
            | rest2 => (parseElems fuel rest2).map (fun r => (Json.arr r.1, r.2))
          else if c = 't' then
            match rest with
            | 'r' :: 'u' :: 'e' :: rest2 => some (Json.bool true, rest2)
            | _ => none
          else if c = 'f' then
            match rest with
            | 'a' :: 'l' :: 's' :: 'e' :: rest2 => some (Json.bool false, rest2)
            | _ => none
          else if c = 'n' then
            match rest with
            | 'u' :: 'l' :: 'l' :: rest2 => some (Json.null, rest2)
            | _ => none
          else if c = '-' || isDigitChar c then
            (parseNumber (c :: rest)).map (fun r => (Json.num r.1, r.2))
          else none

/-- Parse the elements of a non-empty JSON array up to `]`. -/
def parseElems : ℕ → List Char → Option (List Json × List Char)
  | 0, _ => none
  | fuel + 1, cs => do
      let r ← parseVal fuel cs
      match skipWs r.2 with
      | ',' :: rest2 => (parseElems fuel rest2).map (fun q => (r.1 :: q.1, q.2))
      | ']' :: rest2 => some ([r.1], rest2)
      | _ => none

/-- Parse the members of a non-empty JSON object up to `\x7d`. -/
def parseMembers : ℕ → List Char → Option (List (String × Json) × List Char)
  | 0, _ => none
  | fuel + 1, cs =>
      match skipWs cs with
      | '"' :: rest => do
          let kr ← parseStringBody (rest.length + 1) rest
          match skipWs kr.2 with
          | ':' :: rest3 => do
              let vr ← parseVal fuel rest3
              match skipWs vr.2 with
              | ',' :: rest5 =>
                  (parseMembers fuel rest5).map (fun q => (addMember kr.1 vr.1 q.1, q.2))
              | '}' :: rest5 => some ([(kr.1, vr.1)], rest5)
              | _ => none
          | _ => none
      | _ => none

end

/-- `JSON.parse` on a whole text: one value, then only trailing
whitespace. -/
def parseJsonText (cs : List Char) : Option Json :=
  match parseVal (2 * cs.length + 2) cs with
  | some r => if skipWs r.2 = [] then some r.1 else none
  | none => none

/-- Drop input up to (and keeping) the first occurrence of `c`;
empty when `c` does not occur. -/
def dropUntilChar (c : Char) : List Char → List Char
  | [] => []
  | x :: xs => if x = c then x :: xs else dropUntilChar c xs

namespace GroqAdapter

/-- The JSON block extraction of `analyzeWithGroq`
(src/services/groqAdapter.ts line 165): the greedy regex
`/\x7b[\s\S]*\x7d/` matches from the FIRST `\x7b` of the text to the
LAST `\x7d` after it, or fails when no such span exists. -/
def extractJsonBlock (cs : List Char) : Option (List Char) :=
  if (dropUntilChar '}' (dropUntilChar '{' cs).reverse).isEmpty then none
  else some (dropUntilChar '}' (dropUntilChar '{' cs).reverse).reverse

/-- The two parse failures of `analyzeWithGroq`
(src/services/groqAdapter.ts lines 170 and 173). -/
inductive AdapterParseErr where
  | parseFailedAfterExtract
  | noJsonBlockFound
deriving DecidableEq

/-- The model-output parsing of `analyzeWithGroq`
(src/services/groqAdapter.ts lines 160-175): `JSON.parse` the whole
text; on failure extract the first-`\x7b`-to-last-`\x7d` block and
parse only that substring; fail otherwise. -/
def parseModelOutput (cs : List Char) : Except AdapterParseErr Json :=
  match parseJsonText cs with
  | some j => .ok j
  | none =>
      match extractJsonBlock cs with
      | some block =>
          match parseJsonText block with
          | some j => .ok j
          | none => .error .parseFailedAfterExtract
      | none => .error .noJsonBlockFound

end GroqAdapter

theorem dropUntilChar_cons_ne (c x : Char) (l : List Char) (h : ¬ x = c) :
    dropUntilChar c (x :: l) = dropUntilChar c l := by
  simp only [dropUntilChar, if_neg h]

theorem dropUntilChar_append (c : Char) (l1 l2 : List Char) (h : c ∉ l1) :
    dropUntilChar c (l1 ++ l2) = dropUntilChar c l2 := by
  induction l1 with
  | nil => rfl
  | cons x xs ih =>
      have hx : ¬ x = c := fun hx => h (hx ▸ List.mem_cons_self x xs)
      rw [List.cons_append, dropUntilChar_cons_ne c x _ hx]
      exact ih (fun hm => h (List.mem_cons_of_mem x hm))

theorem dropUntilChar_cons_self (c : Char) (l : List Char) :
    dropUntilChar c (c :: l) = c :: l := by
  simp [dropUntilChar]

/-- The extraction returns exactly the embedded block when the text
before it has no opening brace and the text after it has no closing
brace. -/
theorem extractJsonBlock_embedded (p1 t p2 : List Char)
    (hhead : t.head? = some '{')
    (hlast : t.getLast? = some '}')
    (hp1 : '{' ∉ p1)
    (hp2 : '}' ∉ p2) :
    GroqAdapter.extractJsonBlock (p1 ++ t ++ p2) = some t := by
  obtain ⟨t1, rfl⟩ : ∃ t1, t = '{' :: t1 := by
    cases t with
    | nil => cases hhead
    | cons c t1 =>
        obtain rfl : c = '{' := by
          have : some c = some '{' := hhead
          cases this
          rfl
        exact ⟨t1, rfl⟩
  have hopen : dropUntilChar '{' (p1 ++ '{' :: t1 ++ p2) = '{' :: t1 ++ p2 := by
    rw [List.append_assoc, dropUntilChar_append _ _ _ hp1, List.cons_append,
      dropUntilChar_cons_self]
  obtain ⟨t2, hrev⟩ : ∃ t2, ('{' :: t1).reverse = '}' :: t2 := by
    cases hr : ('{' :: t1).reverse with
    | nil => exact absurd (congrArg List.length hr) (by simp)
    | cons d t2 =>
        obtain rfl : d = '}' := by
          have h1 : ('{' :: t1).reverse.head? = some '}' := by
            rw [List.head?_reverse]
            exact hlast
          rw [hr] at h1
          cases h1
          rfl
        exact ⟨t2, rfl⟩
  have hclose : dropUntilChar '}' (('{' :: t1 ++ p2).reverse) = '}' :: t2 := by
    rw [List.reverse_append, dropUntilChar_append _ _ _ (by
      intro hm
      exact hp2 (List.mem_reverse.mp hm)), hrev, dropUntilChar_cons_self]
  unfold GroqAdapter.extractJsonBlock
  rw [hopen, hclose]
  simp only [List.isEmpty_cons, Bool.false_eq_true, if_false]
  rw [← hrev, List.reverse_reverse]

/-- C7 (amended): if the model output as a whole is not valid JSON but
has the form `prose1 ++ block ++ prose2` where `block` parses as the
JSON value `j`, starts with `\x7b` and ends with `\x7d`, and the
surrounding prose contains no `\x7b` before the block and no `\x7d`
after it, then the adapter extracts exactly that block (the span from
the first `\x7b` to the last `\x7d`), parses it, and returns `j`.  (As
stated — for arbitrary prose — the claim fails: the regex
`/\x7b[\s\S]*\x7d/` is greedy, so a stray closing brace in the
trailing prose is included in the extracted span and the parse fails;
see the counterexample.) -/
theorem claim_C7_amended (p1 t p2 : List Char) (j : Json)
    (hwhole : parseJsonText (p1 ++ t ++ p2) = none)
    (ht : parseJsonText t = some j)
    (hhead : t.head? = some '{')
    (hlast : t.getLast? = some '}')
    (hp1 : '{' ∉ p1)
    (hp2 : '}' ∉ p2) :
    GroqAdapter.parseModelOutput (p1 ++ t ++ p2) = .ok j := by
  unfold GroqAdapter.parseModelOutput
  rw [hwhole, extractJsonBlock_embedded p1 t p2 hhead hlast hp1 hp2]
  show (match parseJsonText t with
    | some j => (Except.ok j : Except GroqAdapter.AdapterParseErr Json)
    | none => .error .parseFailedAfterExtract) = .ok j
  rw [ht]

/-- C7 counterexample: the output `ok \x7b"a":1\x7d x\x7d` is not valid
JSON as a whole and contains exactly one embedded JSON object,
`\x7b"a":1\x7d`, yet the adapter fails: the greedy extraction spans
from the first `\x7b` to the LAST `\x7d`, producing
`\x7b"a":1\x7d x\x7d`, which does not parse. -/
theorem claim_C7_counterexample :
    GroqAdapter.parseModelOutput ("ok \x7b\"a\":1\x7d x\x7d".data) =
      .error .parseFailedAfterExtract ∧
    parseJsonText ("\x7b\"a\":1\x7d".data) = some (Json.obj [("a", Json.num 1)]) := by
  constructor
  · with_unfolding_all rfl
  · with_unfolding_all rfl

/-- C7 witness: the amended theorem applied to a concrete output
wrapped in brace-free prose. -/
theorem claim_C7_witness :
    GroqAdapter.parseModelOutput
        ("Here is the result: ".data ++ "\x7b\"a\":1\x7d".data ++ " Thank you!".data) =
      .ok (Json.obj [("a", Json.num 1)]) := by
  apply claim_C7_amended
  · with_unfolding_all rfl
  · with_unfolding_all rfl
  · rfl
  · rfl
  · decide
  · decide
